import Mathlib

/-!
Verification of the `joao` chat-agent library (shallow embedding).

The embedding models the synchronous `Agent` (src/joao/agent.py) together
with the `ToolsHandler` and `AsyncToolsHandler` classes (src/joao/tools.py).

Modelling conventions:
* Python exceptions are modelled by `Except PyExc`: a `.error` result of a
  function means the Python call raises, `.ok` means it returns normally.
* Python values that flow through the tool pipeline (tool return values,
  message `content` fields) are modelled by `PyVal`; `PyVal.none` is the
  Python `None` object, `PyVal.str s` a string, and `PyVal.coroutine n` the
  coroutine object obtained by calling (without awaiting) a coroutine
  function named `n`.
* `json.loads` is a Python standard-library call, outside this repository.
  The `arguments` field of a tool call is therefore carried directly as its
  decoding outcome: `.error e` models an arguments string that is not valid
  JSON (`json.loads` raises `e`), `.ok kvs` models a JSON object decoding
  to the keyword arguments `kvs`.
* A tool callable is modelled by its body `Args → Except PyExc PyVal`
  tagged sync or async (`asyncio.iscoroutinefunction` distinguishes them).
  Calling a coroutine function without `await` does not run the body and
  yields a coroutine object; `await`-ing a non-awaitable raises `TypeError`.
* The remote model (`client.chat.completions.create`) is an external
  collaborator; it is modelled by a stub list of outcomes consumed one per
  call.  An overall result of `none` means the scenario's stub was
  exhausted, i.e. the behaviour is not determined by the stubbed responses.
* Debug printing (`debug_print` / `is_debug_enabled`) has no effect on any
  returned value or state and is omitted.
-/

/-- A Python exception: its class name and its `str(e)` message. -/
structure PyExc where
  kind : String
  msg : String
deriving Repr, DecidableEq

/-- A Python value flowing through the tool pipeline. -/
inductive PyVal where
  | none
  | str (s : String)
  | coroutine (fname : String)
deriving Repr, DecidableEq

/-- Python `str(v)` for the values of `PyVal`. -/
def pyStr : PyVal → String
  | .none => "None"
  | .str s => s
  | .coroutine fname => "<coroutine object " ++ fname ++ ">"

/-- Keyword arguments obtained by decoding a tool call's JSON arguments. -/
abbrev Args := List (String × String)

deriving instance DecidableEq for Except

/-- A model-issued tool-call request (`tool_call.id`,
`tool_call.function.name`, `tool_call.function.arguments`).  The
`arguments` field carries the `json.loads` outcome of the raw string. -/
structure ToolCall where
  id : String
  name : String
  arguments : Except PyExc Args
deriving Repr, DecidableEq

/-- The kind of a declared parameter, as reported by `inspect.Parameter`. -/
inductive ParamKind where
  | positionalOnly
  | positionalOrKeyword
  | varPositional
  | varKeyword
  | keywordOnly
deriving Repr, DecidableEq

/-- Whether the parameter is a catch-all (`*args` or `**kwargs`). -/
def ParamKind.isVariadic : ParamKind → Bool
  | .varPositional => true
  | .varKeyword => true
  | _ => false

/-- One declared parameter of a callable: its name, kind, and whether its
default differs from `Parameter.empty`. -/
structure Param where
  name : String
  kind : ParamKind
  hasDefault : Bool
deriving Repr, DecidableEq

/-- The body of a tool callable, tagged by calling convention.  The
function models running the body on decoded keyword arguments. -/
inductive ToolImpl where
  | sync (f : Args → Except PyExc PyVal)
  | async (f : Args → Except PyExc PyVal)

/-- A tool callable: `__name__`, `__doc__`, `inspect.signature` parameters,
and its body. -/
structure Tool where
  name : String
  docstring : Option String
  params : List Param
  impl : ToolImpl

/-- Python truthiness of `self.tools`: falsy when `None` or the empty
list (`if not self.tools`). -/
def toolsFalsy : Option (List Tool) → Bool
  | Option.none => true
  | Option.some ts => ts.isEmpty

/-- Shared mutable state of `ToolsHandler` / `AsyncToolsHandler`
(`self.tools`, `self.tool_calls`, `self._last_tool_calls`). -/
structure HandlerState where
  tools : Option (List Tool)
  tool_calls : List ToolCall
  last_tool_calls : List ToolCall

/-- Fresh handler state as built by `__init__`. -/
def HandlerState.init : HandlerState :=
  { tools := Option.none, tool_calls := [], last_tool_calls := [] }

namespace ToolsHandler

/-- `set_tools`: replace the available tool set. -/
def set_tools (h : HandlerState) (tools : Option (List Tool)) : HandlerState :=
  { h with tools := tools }

/-- `clear_tool_calls`: empty the pending queue. -/
def clear_tool_calls (h : HandlerState) : HandlerState :=
  { h with tool_calls := [] }

/-- `set_tool_calls`: move current pending calls into the last-executed
slot, then set pending to the given list (`tool_calls or []`). -/
def set_tool_calls (h : HandlerState) (tool_calls : Option (List ToolCall)) :
    HandlerState :=
  { h with last_tool_calls := h.tool_calls,
           tool_calls := tool_calls.getD [] }

/-- `has_pending_calls`: truthiness of the pending list. -/
def has_pending_calls (h : HandlerState) : Bool :=
  !h.tool_calls.isEmpty

/-- `get_last_tool_calls`. -/
def get_last_tool_calls (h : HandlerState) : List ToolCall :=
  h.last_tool_calls

/-- `get_pending_calls`. -/
def get_pending_calls (h : HandlerState) : List ToolCall :=
  h.tool_calls

/-- `clear_pending_calls` (delegates to `clear_tool_calls`). -/
def clear_pending_calls (h : HandlerState) : HandlerState :=
  clear_tool_calls h

end ToolsHandler

/-- The `parameters` schema of a tool definition.  `required = none`
models the `required` key being absent from the dictionary. -/
structure ParamsSchema where
  properties : List (String × String)
  required : Option (List String)
deriving Repr, DecidableEq

/-- A tool definition (`tool_def["function"]`): name, description and
parameters schema. -/
structure ToolDef where
  name : String
  description : String
  parameters : ParamsSchema
deriving Repr, DecidableEq

/-- One iteration of the parameter loop of `create_tool_def`: skip
catch-all parameters, append to `required` when there is no default, and
record the property typed `"string"`. -/
def createToolDefStep (acc : List (String × String) × List String)
    (p : Param) : List (String × String) × List String :=
  match p.kind with
  | .varPositional => acc
  | .varKeyword => acc
  | _ =>
    let required := if p.hasDefault then acc.2 else acc.2 ++ [p.name]
    (acc.1 ++ [(p.name, "string")], required)

/-- `create_tool_def` (identical in `ToolsHandler` and
`AsyncToolsHandler`): build the JSON-schema tool definition from the
callable's signature and docstring; the `required` key is added only when
the collected list is non-empty. -/
def create_tool_def (c : Tool) : ToolDef :=
  let acc := c.params.foldl createToolDefStep ([], [])
  { name := c.name,
    description := c.docstring.getD "",
    parameters :=
      { properties := acc.1,
        required := if acc.2.isEmpty then Option.none else Option.some acc.2 } }

/-- `get_tools_definitions`: empty when no tools are available, else one
definition per tool. -/
def get_tools_definitions (h : HandlerState) : List ToolDef :=
  if toolsFalsy h.tools then []
  else (h.tools.getD []).map create_tool_def

/-- Resolution of a tool-call name against the active tool set:
`next((t for t in self.tools if t.__name__ == tool_name), None)`. -/
def findTool (h : HandlerState) (tool_name : String) : Option Tool :=
  (h.tools.getD []).find? (fun t => t.name == tool_name)

namespace ToolsHandler

/-- `ToolsHandler.execute_tool_call` (the per-call execution used both by
`execute_tool_calls` and by `Agent.use_tools`).  The `json.loads` of the
arguments happens before the `try` block, so a decode failure raises; a
missing tool yields `str(None)`; calling an async tool without `await`
returns a coroutine object whose `str` is returned; an exception raised by
a sync tool body is caught and converted to `str(None)`. -/
def execute_tool_call (h : HandlerState) (tool_call : ToolCall) :
    Except PyExc PyVal :=
  if toolsFalsy h.tools then Except.ok PyVal.none
  else
    match tool_call.arguments with
    | Except.error e => Except.error e
    | Except.ok tool_args =>
      match findTool h tool_call.name with
      | Option.none => Except.ok (PyVal.str "None")
      | Option.some tool =>
        match tool.impl with
        | ToolImpl.async _ =>
          Except.ok (PyVal.str (pyStr (PyVal.coroutine tool.name)))
        | ToolImpl.sync f =>
          match f tool_args with
          | Except.error _ => Except.ok (PyVal.str "None")
          | Except.ok response => Except.ok (PyVal.str (pyStr response))

/-- The fold inside `ToolsHandler.execute_tool_calls`: run each call in
arrival order, keeping only results that are not `None`. -/
def collectResults (h : HandlerState) :
    List ToolCall → List String → Except PyExc (List String)
  | [], acc => Except.ok acc
  | tc :: rest, acc =>
    match execute_tool_call h tc with
    | Except.error e => Except.error e
    | Except.ok PyVal.none => collectResults h rest acc
    | Except.ok (PyVal.str s) => collectResults h rest (acc ++ [s])
    | Except.ok (PyVal.coroutine n) =>
      collectResults h rest (acc ++ [pyStr (PyVal.coroutine n)])

/-- `ToolsHandler.execute_tool_calls`: `None` when no calls are pending,
otherwise the newline join of the collected non-`None` results. -/
def execute_tool_calls (h : HandlerState) : Except PyExc (Option String) :=
  if !has_pending_calls h then Except.ok Option.none
  else
    match collectResults h h.tool_calls [] with
    | Except.error e => Except.error e
    | Except.ok results =>
      Except.ok (Option.some (String.intercalate "\n" results))

/-- `ToolsHandler._call_tool`: unused by `Agent`.  A missing tool set or
an unresolved name returns `None`; an async tool raises `TypeError`
before the `try` block; both an arguments-decode failure and a tool-body
exception are caught and rendered as `"Error executing <name>: <msg>"`. -/
def call_tool (h : HandlerState) (tool_call : ToolCall) :
    Except PyExc PyVal :=
  if toolsFalsy h.tools then Except.ok PyVal.none
  else
    match findTool h tool_call.name with
    | Option.none => Except.ok PyVal.none
    | Option.some tool =>
      match tool.impl with
      | ToolImpl.async _ =>
        Except.error { kind := "TypeError",
                       msg := "Cannot execute async tool in sync handler" }
      | ToolImpl.sync f =>
        match tool_call.arguments with
        | Except.error e =>
          Except.ok (PyVal.str
            ("Error executing " ++ tool_call.name ++ ": " ++ e.msg))
        | Except.ok args =>
          match f args with
          | Except.error e =>
            Except.ok (PyVal.str
              ("Error executing " ++ tool_call.name ++ ": " ++ e.msg))
          | Except.ok v => Except.ok v

end ToolsHandler

namespace AsyncToolsHandler

/-- `AsyncToolsHandler.execute_tool_call`.  As in the sync variant the
arguments are decoded before the `try` block and a missing tool yields
`str(None)`.  Inside the `try`, `await tool(**tool_args)` runs an async
body normally; for a sync tool the call runs the body and then `await`
on the returned non-awaitable raises `TypeError` — inside the `try`, so
every such failure is caught and converted to `str(None)`. -/
def execute_tool_call (h : HandlerState) (tool_call : ToolCall) :
    Except PyExc PyVal :=
  if toolsFalsy h.tools then Except.ok PyVal.none
  else
    match tool_call.arguments with
    | Except.error e => Except.error e
    | Except.ok tool_args =>
      match findTool h tool_call.name with
      | Option.none => Except.ok (PyVal.str "None")
      | Option.some tool =>
        let awaited : Except PyExc PyVal :=
          match tool.impl with
          | ToolImpl.async f => f tool_args
          | ToolImpl.sync f =>
            match f tool_args with
            | Except.error e => Except.error e
            | Except.ok _ =>
              Except.error (PyExc.mk "TypeError"
                "object can not be used in an await expression")
        match awaited with
        | Except.error _ => Except.ok (PyVal.str "None")
        | Except.ok response => Except.ok (PyVal.str (pyStr response))

/-- The fold inside `AsyncToolsHandler.execute_tool_calls`. -/
def collectResults (h : HandlerState) :
    List ToolCall → List String → Except PyExc (List String)
  | [], acc => Except.ok acc
  | tc :: rest, acc =>
    match execute_tool_call h tc with
    | Except.error e => Except.error e
    | Except.ok PyVal.none => collectResults h rest acc
    | Except.ok (PyVal.str s) => collectResults h rest (acc ++ [s])
    | Except.ok (PyVal.coroutine n) =>
      collectResults h rest (acc ++ [pyStr (PyVal.coroutine n)])

/-- `AsyncToolsHandler.execute_tool_calls`. -/
def execute_tool_calls (h : HandlerState) : Except PyExc (Option String) :=
  if !ToolsHandler.has_pending_calls h then Except.ok Option.none
  else
    match collectResults h h.tool_calls [] with
    | Except.error e => Except.error e
    | Except.ok results =>
      Except.ok (Option.some (String.intercalate "\n" results))

/-- `AsyncToolsHandler._call_tool`: a sync tool raises `TypeError` before
the `try` block; decode and body failures are caught and rendered as
`"Error executing <name>: <msg>"`. -/
def call_tool (h : HandlerState) (tool_call : ToolCall) :
    Except PyExc PyVal :=
  if toolsFalsy h.tools then Except.ok PyVal.none
  else
    match findTool h tool_call.name with
    | Option.none => Except.ok PyVal.none
    | Option.some tool =>
      match tool.impl with
      | ToolImpl.sync _ =>
        Except.error { kind := "TypeError",
                       msg := "Cannot execute sync tool in async handler" }
      | ToolImpl.async f =>
        match tool_call.arguments with
        | Except.error e =>
          Except.ok (PyVal.str
            ("Error executing " ++ tool_call.name ++ ": " ++ e.msg))
        | Except.ok args =>
          match f args with
          | Except.error e =>
            Except.ok (PyVal.str
              ("Error executing " ++ tool_call.name ++ ": " ++ e.msg))
          | Except.ok v => Except.ok v

end AsyncToolsHandler

/-- A conversation message.  `content` is a Python value: `Agent.use_tools`
stores the raw tool response object (possibly `None`) in the tool
message's `content` slot. -/
structure Message where
  role : String
  content : PyVal
  tool_calls : List ToolCall := []
  tool_call_id : Option String := Option.none
  name : Option String := Option.none
deriving Repr, DecidableEq

/-- The single choice message of a (non-streaming) remote completion:
`response.choices[0].message`, with `content` and `tool_calls`
(`tool_calls = []` models both an absent and an empty list, which are
equally falsy). -/
structure ModelMessage where
  content : Option String
  tool_calls : List ToolCall := []
deriving Repr, DecidableEq

/-- One stubbed outcome of `client.chat.completions.create`: either a
message, or an exception raised by the remote call. -/
abbrev ModelOutcome := Except PyExc ModelMessage

/-- The `Agent` state the core operations read and write: the message
history and the embedded `ToolsHandler`. -/
structure AgentState where
  messages : List Message
  handler : HandlerState

/-- Python `None` / `str` as an optional string, for message contents. -/
def optPy : Option String → PyVal
  | Option.none => PyVal.none
  | Option.some s => PyVal.str s

/-- The user message appended by `Agent.request`. -/
def userMsg (text : String) : Message :=
  { role := "user", content := PyVal.str text }

/-- The assistant message object appended by `Agent.request`
(`self.messages.append(answer)`). -/
def assistantAnswerMsg (answer : ModelMessage) : Message :=
  { role := "assistant", content := optPy answer.content,
    tool_calls := answer.tool_calls }

/-- `"\n".join(responses)`: succeeds on a list of strings, raises
`TypeError` when any item is not a string (e.g. `None`). -/
def pyvalsAsStrs : List PyVal → Option (List String)
  | [] => Option.some []
  | PyVal.str s :: rest => (pyvalsAsStrs rest).map (fun ss => s :: ss)
  | _ :: _ => Option.none

/-- Python `"\n".join` over the collected tool responses. -/
def joinResponses (vs : List PyVal) : Except PyExc String :=
  match pyvalsAsStrs vs with
  | Option.some ss => Except.ok (String.intercalate "\n" ss)
  | Option.none =>
    Except.error (PyExc.mk "TypeError" "sequence item: expected str instance")

/-- Python `str.strip()`: drop whitespace from both ends. -/
def pyStrip (s : String) : String :=
  String.mk
    (((s.data.dropWhile Char.isWhitespace).reverse.dropWhile
        Char.isWhitespace).reverse)

/-- Truthiness test `answer.content is not None and answer.content.strip() != ""`
used by `Agent.request`. -/
def hasContentB : Option String → Bool
  | Option.none => false
  | Option.some c => pyStrip c != ""

/-- `answer.content or "\n".join(responses)` at the end of
`Agent.use_tools`: the content when it is a non-empty string, otherwise
the join (which may raise). -/
def contentOrJoin (content : Option String) (responses : List PyVal) :
    Except PyExc String :=
  match content with
  | Option.some c => if c = "" then joinResponses responses else Except.ok c
  | Option.none => joinResponses responses

/-- The per-call loop of `Agent.use_tools`: execute each pending call via
`ToolsHandler.execute_tool_call`, collect the responses, and (when
`auto_update`) append the assistant tool-call message and the tool
response message for each call.  An exception from a call propagates
immediately, keeping the messages appended so far. -/
def execPending (h : HandlerState) (auto_update : Bool) :
    List ToolCall → List Message → List PyVal →
    List Message × Except PyExc (List PyVal)
  | [], msgs, acc => (msgs, Except.ok acc)
  | tc :: rest, msgs, acc =>
    match ToolsHandler.execute_tool_call h tc with
    | Except.error e => (msgs, Except.error e)
    | Except.ok response =>
      let msgs2 := if auto_update then
          msgs ++
            [{ role := "assistant", content := PyVal.str "",
               tool_calls := [tc] },
             { role := "tool", content := response,
               tool_call_id := Option.some tc.id,
               name := Option.some tc.name }]
        else msgs
      execPending h auto_update rest msgs2 (acc ++ [response])

/-- The result of one `Agent.use_tools` run: the Python return value (an
optional string) or a propagating exception, the resulting agent state,
and the unconsumed remote stub. -/
abbrev UseToolsResult :=
  Except PyExc (Option String) × AgentState × List ModelOutcome

/-- Tail of `Agent.use_tools` when `auto_update` is false:
`return "\n".join(responses)` (which raises when a response is not a
string). -/
def finish_no_update (msgs : List Message) (h : HandlerState)
    (responses : List PyVal) (stub : List ModelOutcome) :
    Option UseToolsResult :=
  match joinResponses responses with
  | Except.ok s =>
    Option.some (Except.ok (Option.some s), AgentState.mk msgs h, stub)
  | Except.error e =>
    Option.some (Except.error e, AgentState.mk msgs h, stub)

/-- Tail of `Agent.use_tools` once the follow-up model turn carries no
tool calls: `return answer.content or "\n".join(responses)`. -/
def finish_plain_turn (answer : ModelMessage) (msgs2 : List Message)
    (h : HandlerState) (responses : List PyVal)
    (rest : List ModelOutcome) : Option UseToolsResult :=
  match contentOrJoin answer.content responses with
  | Except.ok s =>
    Option.some (Except.ok (Option.some s), AgentState.mk msgs2 h, rest)
  | Except.error e =>
    Option.some (Except.error e, AgentState.mk msgs2 h, rest)

/-- The assistant message appended by `Agent.use_tools` after the
follow-up completion (`{"role": "assistant", "content": answer.content or ""}`). -/
def assistantContentMsg (answer : ModelMessage) : Message :=
  { role := "assistant", content := PyVal.str (answer.content.getD "") }

/-- `Agent.use_tools`: execute all pending tool calls; with `auto_update`
send the updated history back to the remote model and recurse while the
new response carries tool calls.  An overall result of `none` means the
stub was exhausted by the recursion.  The recursion consumes one stub
element per follow-up completion, so it is structural in the stub; the
two stub patterns below run the identical round, with the empty stub
unable to serve the follow-up completion of the `auto_update` branch. -/
def use_tools : AgentState → Bool → List ModelOutcome →
    Option UseToolsResult
  | st, auto_update, [] =>
    if st.handler.tool_calls.isEmpty then
      Option.some (Except.ok Option.none, st, [])
    else
      match execPending st.handler auto_update st.handler.tool_calls
          st.messages [] with
      | (msgs, Except.error e) =>
        Option.some (Except.error e, AgentState.mk msgs st.handler, [])
      | (msgs, Except.ok responses) =>
        if auto_update then Option.none
        else
          finish_no_update msgs
            (ToolsHandler.clear_pending_calls st.handler) responses []
  | st, auto_update, o :: rest =>
    if st.handler.tool_calls.isEmpty then
      Option.some (Except.ok Option.none, st, o :: rest)
    else
      match execPending st.handler auto_update st.handler.tool_calls
          st.messages [] with
      | (msgs, Except.error e) =>
        Option.some (Except.error e, AgentState.mk msgs st.handler,
          o :: rest)
      | (msgs, Except.ok responses) =>
        let h := ToolsHandler.clear_pending_calls st.handler
        if auto_update then
          match o with
          | Except.error e =>
            Option.some (Except.error e, AgentState.mk msgs h, rest)
          | Except.ok answer =>
            let msgs2 := msgs ++ [assistantContentMsg answer]
            if answer.tool_calls.isEmpty then
              finish_plain_turn answer msgs2 h responses rest
            else
              use_tools
                (AgentState.mk msgs2
                  (ToolsHandler.set_tool_calls h
                    (Option.some answer.tool_calls)))
                true rest
        else finish_no_update msgs h responses (o :: rest)

/-- Rendering of `tool_response` inside the f-string
`f"{answer.content}\n\n{tool_response}"`. -/
def pyOptStr : Option String → String
  | Option.none => "None"
  | Option.some s => s

/-- `Agent.request` with `stream=False`: set the tools, append the user
message, call the remote model, and interpret the answer; every exception
raised inside the `try` block (the remote call itself, or anything raised
out of `use_tools`) is caught and returned as `"Error: " ++ msg`. -/
def request (st : AgentState) (message : String)
    (tools : Option (List Tool)) (auto_use_tools : Bool)
    (stub : List ModelOutcome) :
    Option (Option String × AgentState × List ModelOutcome) :=
  let h := ToolsHandler.set_tools st.handler tools
  let msgs := st.messages ++ [userMsg message]
  match stub with
  | [] => Option.none
  | Except.error e :: rest =>
    Option.some (Option.some ("Error: " ++ e.msg),
      AgentState.mk msgs h, rest)
  | Except.ok answer :: rest =>
    let msgs2 := msgs ++ [assistantAnswerMsg answer]
    if answer.tool_calls.isEmpty then
      Option.some (answer.content, AgentState.mk msgs2 h, rest)
    else
      let h2 := ToolsHandler.set_tool_calls h (Option.some answer.tool_calls)
      if auto_use_tools then
        match use_tools (AgentState.mk msgs2 h2) true rest with
        | Option.none => Option.none
        | Option.some (Except.error e, st2, rest2) =>
          Option.some (Option.some ("Error: " ++ e.msg), st2, rest2)
        | Option.some (Except.ok tool_response, st2, rest2) =>
          if hasContentB answer.content then
            Option.some (Option.some (answer.content.getD "" ++ "\n\n" ++
              pyOptStr tool_response), st2, rest2)
          else
            Option.some (tool_response, st2, rest2)
      else
        Option.some (answer.content, AgentState.mk msgs2 h2, rest)

/-! ### Helper lemmas -/

/-- Unfolding of the parameter loop of `create_tool_def`: the properties
are the non-variadic parameters in declaration order, each typed
`"string"`; the required names are the non-variadic parameters without a
default, in declaration order. -/
theorem createToolDefStep_foldl (ps : List Param)
    (acc : List (String × String) × List String) :
    ps.foldl createToolDefStep acc =
      (acc.1 ++ (ps.filter (fun p => !p.kind.isVariadic)).map
          (fun p => (p.name, "string")),
       acc.2 ++ (ps.filter (fun p => !p.kind.isVariadic && !p.hasDefault)).map
          (fun p => p.name)) := by
  induction ps generalizing acc with
  | nil => simp
  | cons p ps ih =>
    cases hk : p.kind <;> cases hd : p.hasDefault <;>
      simp [createToolDefStep, hk, hd, ParamKind.isVariadic, ih]

/-- With decodable arguments, `ToolsHandler.execute_tool_call` never
raises. -/
theorem execute_tool_call_ok (h : HandlerState) (tc : ToolCall)
    (hargs : ∃ a, tc.arguments = Except.ok a) :
    ∃ v, ToolsHandler.execute_tool_call h tc = Except.ok v := by
  obtain ⟨a, ha⟩ := hargs
  unfold ToolsHandler.execute_tool_call
  cases hf : toolsFalsy h.tools <;> simp [hf, ha]
  cases hft : findTool h tc.name with
  | none => simp
  | some tool =>
    cases htool : tool.impl with
    | async f => simp [htool]
    | sync f => cases hfa : f a <;> simp [htool, hfa]

/-- With a truthy tool set and decodable arguments,
`ToolsHandler.execute_tool_call` returns a string. -/
theorem execute_tool_call_str (h : HandlerState) (tc : ToolCall)
    (htools : toolsFalsy h.tools = false)
    (hargs : ∃ a, tc.arguments = Except.ok a) :
    ∃ s, ToolsHandler.execute_tool_call h tc = Except.ok (PyVal.str s) := by
  obtain ⟨a, ha⟩ := hargs
  unfold ToolsHandler.execute_tool_call
  simp [htools, ha]
  cases hft : findTool h tc.name with
  | none => simp
  | some tool =>
    cases htool : tool.impl with
    | async f => simp [htool]
    | sync f => cases hfa : f a <;> simp [htool, hfa]

/-- The value produced by a successful per-call execution. -/
def execResultVal (h : HandlerState) (tc : ToolCall) : PyVal :=
  match ToolsHandler.execute_tool_call h tc with
  | Except.ok v => v
  | Except.error _ => PyVal.none

/-- With decodable arguments the per-call loop of `Agent.use_tools` never
raises and collects exactly the per-call results, in arrival order. -/
theorem execPending_ok (h : HandlerState) (au : Bool) (calls : List ToolCall)
    (msgs : List Message) (acc : List PyVal)
    (hargs : ∀ tc ∈ calls, ∃ a, tc.arguments = Except.ok a) :
    ∃ msgs2, execPending h au calls msgs acc =
      (msgs2, Except.ok (acc ++ calls.map (execResultVal h))) := by
  induction calls generalizing msgs acc with
  | nil => exact ⟨msgs, by simp [execPending]⟩
  | cons tc rest ih =>
    obtain ⟨v, hv⟩ := execute_tool_call_ok h tc (hargs tc (by simp))
    have hval : execResultVal h tc = v := by simp [execResultVal, hv]
    simp only [execPending, hv]
    obtain ⟨msgs2, hrec⟩ := ih
      (if au = true then msgs ++
          [{ role := "assistant", content := PyVal.str "", tool_calls := [tc] },
           { role := "tool", content := v, tool_call_id := Option.some tc.id,
             name := Option.some tc.name }]
        else msgs)
      (acc ++ [v]) (fun tc2 htc2 => hargs tc2 (by simp [htc2]))
    exact ⟨msgs2, by rw [hrec]; simp [hval]⟩

/-- With `auto_update = False` the per-call loop leaves the message list
untouched. -/
theorem execPending_no_update (h : HandlerState) (calls : List ToolCall)
    (msgs : List Message) (acc : List PyVal)
    (hargs : ∀ tc ∈ calls, ∃ a, tc.arguments = Except.ok a) :
    execPending h false calls msgs acc =
      (msgs, Except.ok (acc ++ calls.map (execResultVal h))) := by
  induction calls generalizing acc with
  | nil => simp [execPending]
  | cons tc rest ih =>
    obtain ⟨v, hv⟩ := execute_tool_call_ok h tc (hargs tc (by simp))
    have hval : execResultVal h tc = v := by simp [execResultVal, hv]
    have hrec := ih (acc ++ [v]) (fun tc2 htc2 => hargs tc2 (by simp [htc2]))
    simp only [execPending, hv]
    rw [if_neg (by simp)]
    rw [hrec]
    simp [hval]

/-- Joining a list of strings succeeds and yields their `str` images. -/
theorem joinResponses_strs (vs : List PyVal)
    (hstr : ∀ v ∈ vs, ∃ s, v = PyVal.str s) :
    joinResponses vs = Except.ok (String.intercalate "\n" (vs.map pyStr)) := by
  have hmk : pyvalsAsStrs vs = Option.some (vs.map pyStr) := by
    induction vs with
    | nil => simp [pyvalsAsStrs]
    | cons v rest ih =>
      obtain ⟨s, hs⟩ := hstr v (by simp)
      subst hs
      have := ih (fun v2 hv2 => hstr v2 (by simp [hv2]))
      simp [pyvalsAsStrs, this, pyStr]
  simp [joinResponses, hmk]

/-- The result of a single per-call execution as a skip-or-keep entry of
`execute_tool_calls` (`None` responses are skipped). -/
def perCallResult (h : HandlerState) (tc : ToolCall) : Option String :=
  match ToolsHandler.execute_tool_call h tc with
  | Except.ok PyVal.none => Option.none
  | Except.ok v => Option.some (pyStr v)
  | Except.error _ => Option.none

/-- When no call raises, the result-collection loop of
`execute_tool_calls` keeps the non-`None` results, in arrival order. -/
theorem collectResults_spec (h : HandlerState) (calls : List ToolCall)
    (acc : List String)
    (hok : ∀ tc ∈ calls, ∃ v, ToolsHandler.execute_tool_call h tc = Except.ok v) :
    ToolsHandler.collectResults h calls acc =
      Except.ok (acc ++ calls.filterMap (perCallResult h)) := by
  induction calls generalizing acc with
  | nil => simp [ToolsHandler.collectResults]
  | cons tc rest ih =>
    obtain ⟨v, hv⟩ := hok tc (by simp)
    have hrec := fun acc2 => ih acc2 (fun tc2 htc2 => hok tc2 (by simp [htc2]))
    cases v with
    | none =>
      simp [ToolsHandler.collectResults, hv, hrec, perCallResult,
        List.filterMap_cons]
    | str s =>
      simp [ToolsHandler.collectResults, hv, hrec, perCallResult,
        List.filterMap_cons, pyStr]
    | coroutine n =>
      simp [ToolsHandler.collectResults, hv, hrec, perCallResult,
        List.filterMap_cons, pyStr]

/-! ### Concrete fixtures used by counterexamples and witnesses -/

/-- A sync tool echoing its first keyword argument. -/
def tEcho : Tool :=
  { name := "echo", docstring := Option.some "Echo tool",
    params := [{ name := "x", kind := ParamKind.positionalOrKeyword,
                 hasDefault := false }],
    impl := ToolImpl.sync (fun args =>
      Except.ok (PyVal.str ("echo:" ++ (args.head?.map Prod.snd).getD ""))) }

/-- A call to `tEcho` with valid JSON arguments. -/
def cEcho : ToolCall :=
  { id := "call_1", name := "echo", arguments := Except.ok [("x", "a")] }

/-- A sync tool whose Python body returns `None`. -/
def tRetNone : Tool :=
  { name := "retnone", docstring := Option.none, params := [],
    impl := ToolImpl.sync (fun _ => Except.ok PyVal.none) }

/-- A call to `tRetNone` with valid JSON arguments. -/
def cRetNone : ToolCall :=
  { id := "call_2", name := "retnone", arguments := Except.ok [] }

/-- A call to a name that matches no registered tool. -/
def cGhost : ToolCall :=
  { id := "call_3", name := "ghost", arguments := Except.ok [] }

/-- A sync tool whose body raises. -/
def tBoom : Tool :=
  { name := "boom", docstring := Option.none, params := [],
    impl := ToolImpl.sync (fun _ =>
      Except.error (PyExc.mk "RuntimeError" "boom failed")) }

/-- A call to `tBoom` with valid JSON arguments. -/
def cBoom : ToolCall :=
  { id := "call_4", name := "boom", arguments := Except.ok [] }

/-- The `json.loads` exception for a malformed arguments string. -/
def eBadJson : PyExc :=
  PyExc.mk "JSONDecodeError" "Expecting value: line 1 column 1 (char 0)"

/-- A call to `tEcho` whose arguments string is not valid JSON. -/
def cBadJson : ToolCall :=
  { id := "call_5", name := "echo", arguments := Except.error eBadJson }

/-- An async tool that would return a greeting if awaited. -/
def tAsyncGreet : Tool :=
  { name := "agreet", docstring := Option.none, params := [],
    impl := ToolImpl.async (fun _ => Except.ok (PyVal.str "hi")) }

/-- A call to `tAsyncGreet` with valid JSON arguments. -/
def cAsyncGreet : ToolCall :=
  { id := "call_6", name := "agreet", arguments := Except.ok [] }

/-- A sync tool returning a greeting. -/
def tSyncGreet : Tool :=
  { name := "sgreet", docstring := Option.none, params := [],
    impl := ToolImpl.sync (fun _ => Except.ok (PyVal.str "hi")) }

/-- A call to `tSyncGreet` with valid JSON arguments. -/
def cSyncGreet : ToolCall :=
  { id := "call_7", name := "sgreet", arguments := Except.ok [] }

/-! ### Claim theorems -/

/-- Claim C3 (confirmed).  For every callable, `create_tool_def` lists a
declared parameter in `properties` exactly when it is not a catch-all
(`*args` / `**kwargs`), types every listed parameter as `"string"`, uses
the docstring (or the empty string) as description, puts a parameter in
`required` exactly when it is listed and has no default value, keeps
declaration order, and omits the `required` key entirely when no
parameter is required. -/
theorem create_tool_def_spec (c : Tool) :
    (create_tool_def c).description = c.docstring.getD "" ∧
    (create_tool_def c).parameters.properties =
      (c.params.filter (fun p => !p.kind.isVariadic)).map
        (fun p => (p.name, "string")) ∧
    (create_tool_def c).parameters.required =
      (if ((c.params.filter (fun p => !p.kind.isVariadic && !p.hasDefault)).map
            (fun p => p.name)).isEmpty
       then Option.none
       else Option.some
         ((c.params.filter (fun p => !p.kind.isVariadic && !p.hasDefault)).map
            (fun p => p.name))) := by
  refine ⟨rfl, ?_, ?_⟩ <;> simp [create_tool_def, createToolDefStep_foldl]

/-- Claim C9 (confirmed).  After two successive `set_tool_calls`, the
pending set that was current before the second call is returned by
`get_last_tool_calls`; and `set_tool_calls` with an absent or empty
argument sets pending to the empty list. -/
theorem set_tool_calls_history_spec (h : HandlerState)
    (c1 c2 : Option (List ToolCall)) :
    ToolsHandler.get_last_tool_calls
        (ToolsHandler.set_tool_calls (ToolsHandler.set_tool_calls h c1) c2) =
      ToolsHandler.get_pending_calls (ToolsHandler.set_tool_calls h c1) ∧
    (ToolsHandler.set_tool_calls h Option.none).tool_calls = [] ∧
    (ToolsHandler.set_tool_calls h (Option.some [])).tool_calls = [] :=
  ⟨rfl, rfl, rfl⟩

/-- Handler owning one pending call and no tool set (`self.tools is None`). -/
def hNoTools : HandlerState :=
  { tools := Option.none, tool_calls := [cGhost], last_tool_calls := [] }

/-- Claim C7 counterexample.  With one pending call and no tool set, the
single per-call result is `None` — so there are no results at all — yet
`execute_tool_calls` returns the empty string, not null: null is returned
only when there are no pending calls. -/
theorem execute_tool_calls_empty_join_not_null :
    ToolsHandler.execute_tool_call hNoTools cGhost = Except.ok PyVal.none ∧
    ToolsHandler.execute_tool_calls hNoTools =
      Except.ok (Option.some "") := ⟨rfl, rfl⟩

/-- Claim C7 amended (proved).  When no per-call execution raises,
`execute_tool_calls` executes every pending request in arrival order and
returns the non-`None` per-call result strings joined with newlines; it
returns null exactly when there are no pending calls, and returns the
empty string when pending calls exist but every per-call result was
`None`. -/
theorem execute_tool_calls_spec (h : HandlerState)
    (hok : ∀ tc ∈ h.tool_calls,
      ∃ v, ToolsHandler.execute_tool_call h tc = Except.ok v) :
    ToolsHandler.execute_tool_calls h =
      (if h.tool_calls.isEmpty then Except.ok Option.none
       else Except.ok (Option.some (String.intercalate "\n"
         (h.tool_calls.filterMap (perCallResult h))))) := by
  unfold ToolsHandler.execute_tool_calls
  cases hc : h.tool_calls.isEmpty with
  | true => simp [ToolsHandler.has_pending_calls, hc]
  | false =>
    rw [collectResults_spec h h.tool_calls [] hok]
    simp [ToolsHandler.has_pending_calls, hc]

/-- Witness for C7's amended theorem at a concrete handler: one echo
call, result `"echo:a"`. -/
theorem execute_tool_calls_spec_witness :
    ToolsHandler.execute_tool_calls
        { tools := Option.some [tEcho], tool_calls := [cEcho],
          last_tool_calls := [] } =
      Except.ok (Option.some "echo:a") :=
  (execute_tool_calls_spec
    { tools := Option.some [tEcho], tool_calls := [cEcho],
      last_tool_calls := [] }
    (fun tc htc => by
      simp at htc
      subst htc
      exact ⟨PyVal.str "echo:a", rfl⟩)).trans rfl

/-- Handler with a registered tool that returns `None`, used to show the
not-found marker coincides with a genuine tool result. -/
def hRetNone : HandlerState :=
  { tools := Option.some [tRetNone], tool_calls := [], last_tool_calls := [] }

/-- Claim C5 counterexample.  On the per-call path the conversation loop
actually uses (`execute_tool_call`), an unresolvable name yields the
string `"None"` — exactly the same value a real registered tool
returning `None` produces, so the not-found result is not distinct from a
real string result (the distinct `None` marker lives in `_call_tool`,
which the loop never calls). -/
theorem missing_tool_marker_not_distinct :
    ToolsHandler.execute_tool_call hRetNone cGhost =
      Except.ok (PyVal.str "None") ∧
    ToolsHandler.execute_tool_call hRetNone cRetNone =
      Except.ok (PyVal.str "None") ∧
    ToolsHandler.execute_tool_call hRetNone cGhost =
      ToolsHandler.execute_tool_call hRetNone cRetNone :=
  ⟨rfl, rfl, rfl⟩

/-- Claim C5 amended (proved).  For an unresolvable tool name neither
path raises: `execute_tool_call` — used both for aggregate execution and
per call by the conversation loop — returns the string `"None"`
(indistinguishable from a tool that returned `None`), while the separate
`_call_tool` path (not used by the conversation loop) returns the `None`
marker, which is distinct from every string result. -/
theorem missing_tool_paths_spec (h : HandlerState) (tc : ToolCall)
    (htools : toolsFalsy h.tools = false)
    (hargs : ∃ a, tc.arguments = Except.ok a)
    (hmiss : findTool h tc.name = Option.none) :
    ToolsHandler.execute_tool_call h tc = Except.ok (PyVal.str "None") ∧
    ToolsHandler.call_tool h tc = Except.ok PyVal.none ∧
    (∀ s, PyVal.none ≠ PyVal.str s) := by
  obtain ⟨a, ha⟩ := hargs
  refine ⟨?_, ?_, fun s hs => by cases hs⟩
  · unfold ToolsHandler.execute_tool_call
    simp [htools, ha, hmiss]
  · unfold ToolsHandler.call_tool
    simp [htools, hmiss]

/-- Witness for C5's amended theorem: the `ghost` call against the
`retnone` handler. -/
theorem missing_tool_paths_spec_witness :
    ToolsHandler.execute_tool_call hRetNone cGhost =
      Except.ok (PyVal.str "None") ∧
    ToolsHandler.call_tool hRetNone cGhost = Except.ok PyVal.none ∧
    (∀ s, PyVal.none ≠ PyVal.str s) :=
  missing_tool_paths_spec hRetNone cGhost rfl ⟨[], rfl⟩ rfl

/-- Handler holding the `echo` and `boom` tools. -/
def hEchoBoom : HandlerState :=
  { tools := Option.some [tEcho, tBoom], tool_calls := [],
    last_tool_calls := [] }

/-- Claim C1 counterexample.  On the per-call execution the conversation
loop actually uses (`execute_tool_call`, called from `Agent.use_tools`),
a tool call whose arguments string is not valid JSON makes the decode
exception propagate to the caller — no `"Error executing ..."` string is
produced — and an exception raised by the invoked tool itself is
converted to the string `"None"`, not to an `"Error executing ..."`
string. -/
theorem execute_tool_call_error_propagates :
    ToolsHandler.execute_tool_call hEchoBoom cBadJson =
      Except.error eBadJson ∧
    ToolsHandler.execute_tool_call hEchoBoom cBoom =
      Except.ok (PyVal.str "None") := ⟨rfl, rfl⟩

/-- Claim C1 amended (proved).  For a resolvable sync tool:
the conversation loop's per-call execution (`execute_tool_call`)
propagates an arguments-decode exception to its caller and converts a
tool-raised exception into the string `"None"`; the conversion of both
failures into `"Error executing <name>: <message>"`, without raising,
is implemented by the separate `_call_tool` method, which the
conversation loop does not invoke. -/
theorem dispatch_error_conversion_paths (h : HandlerState) (tc : ToolCall)
    (t : Tool) (f : Args → Except PyExc PyVal)
    (htools : toolsFalsy h.tools = false)
    (hfind : findTool h tc.name = Option.some t)
    (himpl : t.impl = ToolImpl.sync f) :
    (∀ e, tc.arguments = Except.error e →
      ToolsHandler.execute_tool_call h tc = Except.error e ∧
      ToolsHandler.call_tool h tc =
        Except.ok (PyVal.str
          ("Error executing " ++ tc.name ++ ": " ++ e.msg))) ∧
    (∀ a e, tc.arguments = Except.ok a → f a = Except.error e →
      ToolsHandler.execute_tool_call h tc = Except.ok (PyVal.str "None") ∧
      ToolsHandler.call_tool h tc =
        Except.ok (PyVal.str
          ("Error executing " ++ tc.name ++ ": " ++ e.msg))) := by
  constructor
  · intro e he
    constructor
    · unfold ToolsHandler.execute_tool_call
      simp [htools, he]
    · unfold ToolsHandler.call_tool
      simp [htools, hfind, himpl, he]
  · intro a e ha hfa
    constructor
    · unfold ToolsHandler.execute_tool_call
      simp [htools, ha, hfind, himpl, hfa]
    · unfold ToolsHandler.call_tool
      simp [htools, hfind, himpl, ha, hfa]

/-- Witness for C1's amended theorem: the malformed-JSON call and the
raising `boom` call against the `echo`/`boom` handler. -/
theorem dispatch_error_conversion_paths_witness :
    (ToolsHandler.execute_tool_call hEchoBoom cBadJson =
        Except.error eBadJson ∧
      ToolsHandler.call_tool hEchoBoom cBadJson =
        Except.ok (PyVal.str ("Error executing " ++ cBadJson.name ++ ": " ++
          eBadJson.msg))) ∧
    (ToolsHandler.execute_tool_call hEchoBoom cBoom =
        Except.ok (PyVal.str "None") ∧
      ToolsHandler.call_tool hEchoBoom cBoom =
        Except.ok (PyVal.str ("Error executing " ++ cBoom.name ++ ": " ++
          "boom failed"))) :=
  ⟨(dispatch_error_conversion_paths hEchoBoom cBadJson tEcho _ rfl rfl
      rfl).1 eBadJson rfl,
   (dispatch_error_conversion_paths hEchoBoom cBoom tBoom _ rfl rfl
      rfl).2 [] (PyExc.mk "RuntimeError" "boom failed") rfl rfl⟩

/-- Handler with the async greeting tool pending in the sync handler. -/
def hAsyncInSync : HandlerState :=
  { tools := Option.some [tAsyncGreet], tool_calls := [cAsyncGreet],
    last_tool_calls := [] }

/-- Handler with the sync greeting tool pending in the async handler. -/
def hSyncInAsync : HandlerState :=
  { tools := Option.some [tSyncGreet], tool_calls := [cSyncGreet],
    last_tool_calls := [] }

/-- Claim C6 (code bug).  The repository's own tests
(`test_sync_handler_with_async_tool`, `test_async_handler_with_sync_tool`)
expect a `TypeError` to propagate out of `execute_tool_calls` on a
calling-convention mismatch, but the `execute_tool_call` paths never
surface one: the sync handler calls the coroutine function without
awaiting and returns the stringified coroutine object, and the async
handler catches the `await` `TypeError` inside its `try` and returns the
string `"None"`.  Only the `_call_tool` methods — which
`execute_tool_calls` does not use — raise the uncaught `TypeError` the
tests and the claim describe. -/
theorem convention_mismatch_not_surfaced :
    ToolsHandler.execute_tool_calls hAsyncInSync =
      Except.ok (Option.some "<coroutine object agreet>") ∧
    AsyncToolsHandler.execute_tool_calls hSyncInAsync =
      Except.ok (Option.some "None") ∧
    ToolsHandler.call_tool hAsyncInSync cAsyncGreet =
      Except.error
        (PyExc.mk "TypeError" "Cannot execute async tool in sync handler") ∧
    AsyncToolsHandler.call_tool hSyncInAsync cSyncGreet =
      Except.error
        (PyExc.mk "TypeError" "Cannot execute sync tool in async handler") :=
  ⟨rfl, rfl, rfl, rfl⟩

/-- Claim C2 (confirmed).  Whenever the remote completion call of a
top-level `request` raises, the exception does not propagate: `request`
returns the string `"Error: " ++ message`, and the conversation history
of the resulting state still ends with — and hence contains — the user
message appended for this turn. -/
theorem request_remote_error_inline (st : AgentState) (message : String)
    (tools : Option (List Tool)) (auto_use_tools : Bool) (e : PyExc)
    (rest : List ModelOutcome) :
    request st message tools auto_use_tools (Except.error e :: rest) =
      Option.some (Option.some ("Error: " ++ e.msg),
        AgentState.mk (st.messages ++ [userMsg message])
          (ToolsHandler.set_tools st.handler tools), rest) ∧
    userMsg message ∈ st.messages ++ [userMsg message] :=
  ⟨rfl, by simp⟩

/-- With a truthy tool set and decodable arguments every per-call result
is a string. -/
theorem execResultVal_str (h : HandlerState) (tc : ToolCall)
    (htools : toolsFalsy h.tools = false)
    (hargs : ∃ a, tc.arguments = Except.ok a) :
    ∃ s, execResultVal h tc = PyVal.str s := by
  obtain ⟨s, hs⟩ := execute_tool_call_str h tc htools hargs
  exact ⟨s, by simp [execResultVal, hs]⟩

/-- Claim C8 (confirmed).  `use_tools` with `auto_update = False` and at
least one pending call returns the newline-joined raw tool results,
consumes no remote stub element (no further model call), and leaves the
message history exactly as it was — no assistant tool-call entry and no
tool-response entry is appended (only the handler's pending queue is
cleared). -/
theorem use_tools_no_auto_update_frame (st : AgentState)
    (stub : List ModelOutcome)
    (hpend : st.handler.tool_calls ≠ [])
    (htools : toolsFalsy st.handler.tools = false)
    (hargs : ∀ tc ∈ st.handler.tool_calls, ∃ a, tc.arguments = Except.ok a) :
    use_tools st false stub =
      Option.some (Except.ok (Option.some (String.intercalate "\n"
          (st.handler.tool_calls.map
            (fun tc => pyStr (execResultVal st.handler tc))))),
        AgentState.mk st.messages
          (ToolsHandler.clear_pending_calls st.handler),
        stub) := by
  have hne : st.handler.tool_calls.isEmpty = false := by
    simpa [List.isEmpty_iff] using hpend
  have hjoin : joinResponses (st.handler.tool_calls.map
      (execResultVal st.handler)) =
      Except.ok (String.intercalate "\n"
        (st.handler.tool_calls.map
          (fun tc => pyStr (execResultVal st.handler tc)))) := by
    rw [joinResponses_strs]
    · simp [List.map_map, Function.comp_def]
    · intro v hv
      simp only [List.mem_map] at hv
      obtain ⟨tc, htc, rfl⟩ := hv
      exact execResultVal_str st.handler tc htools (hargs tc htc)
  cases stub with
  | nil =>
    rw [use_tools, if_neg (by simp [hne]),
      execPending_no_update st.handler st.handler.tool_calls st.messages []
        hargs]
    simp [finish_no_update, hjoin]
  | cons o rest =>
    rw [use_tools, if_neg (by simp [hne]),
      execPending_no_update st.handler st.handler.tool_calls st.messages []
        hargs]
    simp [finish_no_update, hjoin]

/-- Witness for C8: one pending echo call, a non-empty remote stub left
untouched, history unchanged. -/
theorem use_tools_no_auto_update_frame_witness :
    use_tools
        (AgentState.mk [userMsg "hi"]
          { tools := Option.some [tEcho], tool_calls := [cEcho],
            last_tool_calls := [] })
        false [Except.ok { content := Option.some "unused", tool_calls := [] }] =
      Option.some (Except.ok (Option.some "echo:a"),
        AgentState.mk [userMsg "hi"]
          { tools := Option.some [tEcho], tool_calls := [],
            last_tool_calls := [] },
        [Except.ok { content := Option.some "unused", tool_calls := [] }]) :=
  (use_tools_no_auto_update_frame
    (AgentState.mk [userMsg "hi"]
      { tools := Option.some [tEcho], tool_calls := [cEcho],
        last_tool_calls := [] })
    [Except.ok { content := Option.some "unused", tool_calls := [] }]
    (by simp) rfl
    (fun tc htc => by
      simp at htc
      subst htc
      exact ⟨[("x", "a")], rfl⟩)).trans rfl

/-- Claim C10 (confirmed).  When a non-streaming response carries tool
calls and auto-execution is enabled, and the tool phase produces the
string `tr`, `request` returns `content ++ "\n\n" ++ tr` when the
assistant content is non-empty (after stripping), and `tr` alone
otherwise. -/
theorem request_content_tool_concat (st : AgentState) (message : String)
    (tools : Option (List Tool)) (answer : ModelMessage)
    (rest rest2 : List ModelOutcome) (tr : String) (st2 : AgentState)
    (hcalls : answer.tool_calls ≠ [])
    (hloop : use_tools
        (AgentState.mk
          (st.messages ++ [userMsg message] ++ [assistantAnswerMsg answer])
          (ToolsHandler.set_tool_calls
            (ToolsHandler.set_tools st.handler tools)
            (Option.some answer.tool_calls)))
        true rest = Option.some (Except.ok (Option.some tr), st2, rest2)) :
    request st message tools true (Except.ok answer :: rest) =
      Option.some (Option.some
        (if hasContentB answer.content
         then answer.content.getD "" ++ "\n\n" ++ tr
         else tr), st2, rest2) := by
  have hni : answer.tool_calls.isEmpty = false := by
    simp [List.isEmpty_iff, hcalls]
  simp only [request, hni, Bool.false_eq_true, if_false, hloop]
  cases hc : hasContentB answer.content <;> simp [hc, pyOptStr]

/-- Handler used for the end-to-end witnesses: `echo` registered, one
pending echo call. -/
def hEchoPending : HandlerState :=
  { tools := Option.some [tEcho], tool_calls := [cEcho],
    last_tool_calls := [] }

/-- A model turn carrying content and one tool call. -/
def mUseTool : ModelMessage :=
  { content := Option.some "Using tool...", tool_calls := [cEcho] }

/-- A model turn carrying only a tool call. -/
def mTurn2 : ModelMessage :=
  { content := Option.none, tool_calls := [cEcho] }

/-- A model turn carrying plain content and no tool calls. -/
def mDone : ModelMessage :=
  { content := Option.some "done", tool_calls := [] }

/-- Witness for C10: content `"Using tool..."` plus one tool round
ending in `"done"` concatenates with one blank line. -/
theorem request_content_tool_concat_witness :
    ∃ st2, request (AgentState.mk [userMsg "hi"] hEchoPending) "m"
        (Option.some [tEcho]) true [Except.ok mUseTool, Except.ok mDone] =
      Option.some (Option.some "Using tool...\n\ndone", st2, []) := by
  obtain ⟨st2, hloop⟩ :
      ∃ st2, use_tools (AgentState.mk
          ((AgentState.mk [userMsg "hi"] hEchoPending).messages ++
            [userMsg "m"] ++ [assistantAnswerMsg mUseTool])
          (ToolsHandler.set_tool_calls
            (ToolsHandler.set_tools
              (AgentState.mk [userMsg "hi"] hEchoPending).handler
              (Option.some [tEcho]))
            (Option.some mUseTool.tool_calls)))
        true [Except.ok mDone] =
        Option.some (Except.ok (Option.some "done"), st2, []) := ⟨_, rfl⟩
  refine ⟨st2, ?_⟩
  have h := request_content_tool_concat
    (AgentState.mk [userMsg "hi"] hEchoPending) "m" (Option.some [tEcho])
    mUseTool [Except.ok mDone] [] "done" st2 (by decide) hloop
  rw [h]
  rfl

/-- Claim C4 (confirmed).  Starting with a non-empty pending queue and
decodable arguments throughout, `use_tools` with `auto_update` on a
stubbed remote that eventually answers without tool calls terminates,
and it consumes exactly the stub prefix up to and including the first
turn whose response carries no tool calls, regardless of how many
tool-call turns precede it. -/
theorem use_tools_terminates_first_plain_turn
    (responses : List ModelMessage) (st : AgentState)
    (hpend : st.handler.tool_calls ≠ [])
    (hpargs : ∀ tc ∈ st.handler.tool_calls, ∃ a, tc.arguments = Except.ok a)
    (hrargs : ∀ m ∈ responses, ∀ tc ∈ m.tool_calls,
      ∃ a, tc.arguments = Except.ok a)
    (hplain : ∃ m ∈ responses, m.tool_calls = []) :
    ∃ r st2, use_tools st true (responses.map Except.ok) =
      Option.some (r, st2, (responses.map Except.ok).drop
        (responses.findIdx (fun m => m.tool_calls.isEmpty) + 1)) := by
  induction responses generalizing st with
  | nil => simp at hplain
  | cons m rs ih =>
    have hne : st.handler.tool_calls.isEmpty = false := by
      simpa [List.isEmpty_iff] using hpend
    obtain ⟨msgs2, hexec⟩ := execPending_ok st.handler true
      st.handler.tool_calls st.messages [] hpargs
    simp only [List.nil_append] at hexec
    rw [List.map_cons, use_tools, if_neg (by simp [hne]), hexec]
    simp only [if_pos rfl]
    cases hm : m.tool_calls.isEmpty with
    | true =>
      rw [List.findIdx_cons]
      simp only [hm, cond_true, List.drop_succ_cons, List.drop_zero]
      cases hcj : contentOrJoin m.content
          (st.handler.tool_calls.map (execResultVal st.handler)) with
      | ok s =>
        refine ⟨Except.ok (Option.some s),
          AgentState.mk (msgs2 ++ [assistantContentMsg m])
            (ToolsHandler.clear_pending_calls st.handler), ?_⟩
        simp [finish_plain_turn, hcj]
      | error e =>
        refine ⟨Except.error e,
          AgentState.mk (msgs2 ++ [assistantContentMsg m])
            (ToolsHandler.clear_pending_calls st.handler), ?_⟩
        simp [finish_plain_turn, hcj]
    | false =>
      rw [List.findIdx_cons]
      simp only [hm, cond_false, List.drop_succ_cons]
      apply ih
      · simp only [ToolsHandler.set_tool_calls, Option.getD_some]
        intro hnil
        simp [hnil] at hm
      · simp only [ToolsHandler.set_tool_calls, Option.getD_some]
        exact hrargs m (by simp)
      · exact fun m2 hm2 => hrargs m2 (by simp [hm2])
      · obtain ⟨m2, hm2, hm2nil⟩ := hplain
        rcases List.mem_cons.mp hm2 with rfl | hm2rs
        · simp [hm2nil] at hm
        · exact ⟨m2, hm2rs, hm2nil⟩

/-- Witness for C4: two consecutive tool-call turns followed by a plain
turn; the loop consumes exactly the three stub turns. -/
theorem use_tools_terminates_first_plain_turn_witness :
    ∃ r st2, use_tools (AgentState.mk [] hEchoPending) true
        ([mUseTool, mTurn2, mDone].map Except.ok) =
      Option.some (r, st2, ([mUseTool, mTurn2, mDone].map Except.ok).drop
        ([mUseTool, mTurn2, mDone].findIdx
          (fun m => m.tool_calls.isEmpty) + 1)) :=
  use_tools_terminates_first_plain_turn [mUseTool, mTurn2, mDone]
    (AgentState.mk [] hEchoPending)
    (by decide)
    (fun tc htc => by
      simp [hEchoPending] at htc
      subst htc
      exact ⟨[("x", "a")], rfl⟩)
    (fun m hm tc htc => by
      simp [mUseTool, mTurn2, mDone] at hm
      rcases hm with rfl | rfl | rfl <;> simp [mUseTool, mTurn2, mDone] at htc
      · subst htc
        exact ⟨[("x", "a")], rfl⟩
      · subst htc
        exact ⟨[("x", "a")], rfl⟩)
    ⟨mDone, by simp, rfl⟩
